import Mathlib

/-! Shallow embedding of the Eeprom24 I2C EEPROM driver (eeprom24.h and
eeprom24.cpp) and proofs about its bus-level behaviour.

The driver talks to the chip through three HAL primitives: a presence
probe (HAL_I2C_IsDeviceReady), a master transmit of a byte frame and a
master receive of a byte count.  The embedding records the transactions a
call performs as a list of BusEvent values and takes the HAL outcomes of
the phases as explicit parameters, so every driver function is a pure
function of its inputs and of the transport outcomes. -/

/-- Truncation to an unsigned 8-bit value, as a C cast to uint8_t. -/
def u8 (n : Nat) : Nat := n % 256

/-- Truncation to an unsigned 16-bit value, as a C cast to uint16_t. -/
def u16 (n : Nat) : Nat := n % 65536

/-- Outcome of a HAL I2C call (HAL_StatusTypeDef). -/
inductive HalStatus where
  | ok
  | error
  | busy
  | timeout
  deriving DecidableEq, Repr

/-- One transaction observed on the I2C bus: a master transmit of a byte
frame to a device-select value (the 7-bit address shifted left by one), or
a master receive of a byte count. -/
inductive BusEvent where
  | transmit (devSel : Nat) (frame : List Nat)
  | receive (devSel : Nat) (count : Nat)
  deriving DecidableEq, Repr

/-- Embedding of Eeprom24::writeByte_internal16 (eeprom24.cpp lines 62-67):
builds the frame of high address byte, low address byte, data byte, issues
one master transmit of it, and returns whether the HAL reported HAL_OK. -/
def writeByte_internal16 (devAddress byteAddress data : Nat) (txStatus : HalStatus) :
    Bool × List BusEvent :=
  let a := u16 byteAddress
  let tmp := [u8 (a / 256), u8 a, u8 data]
  (decide (txStatus = HalStatus.ok), [BusEvent.transmit (u8 devAddress * 2) tmp])

/-- Embedding of Eeprom24::writeByte_internal8 (eeprom24.cpp lines 79-84):
byteAddress is a uint8_t, yet the frame is built exactly as in the 16-bit
overload, so its first byte is the constant 0 (byteAddress shifted right by
8 on a uint8_t value). -/
def writeByte_internal8 (devAddress byteAddress data : Nat) (txStatus : HalStatus) :
    Bool × List BusEvent :=
  let a := u8 byteAddress
  let tmp := [u8 (a / 256), u8 a, u8 data]
  (decide (txStatus = HalStatus.ok), [BusEvent.transmit (u8 devAddress * 2) tmp])

/-- Embedding of Eeprom24::readByte_internal16 (eeprom24.cpp lines 93-101):
transmits the two address bytes (outcome txStatus, not inspected), then
receives one byte into retval, which was initialised to 0.  The receive
delivers rxByte when the HAL reports HAL_OK and leaves retval at 0
otherwise.  Returns the byte and the transactions performed. -/
def readByte_internal16 (devAddress byteAddress : Nat) (txStatus rxStatus : HalStatus)
    (rxByte : Nat) : Nat × List BusEvent :=
  let a := u16 byteAddress
  let tmp := [u8 (a / 256), u8 a]
  let retval := if rxStatus = HalStatus.ok then u8 rxByte else 0
  (retval, [BusEvent.transmit (u8 devAddress * 2) tmp, BusEvent.receive (u8 devAddress * 2) 1])

/-- Embedding of Eeprom24::readByte_internal8 (eeprom24.cpp lines 110-117):
transmits the single address byte (outcome txStatus, not inspected), then
receives one byte into retval initialised to 0. -/
def readByte_internal8 (devAddress byteAddress : Nat) (txStatus rxStatus : HalStatus)
    (rxByte : Nat) : Nat × List BusEvent :=
  let tmp := [u8 byteAddress]
  let retval := if rxStatus = HalStatus.ok then u8 rxByte else 0
  (retval, [BusEvent.transmit (u8 devAddress * 2) tmp, BusEvent.receive (u8 devAddress * 2) 1])

/-- Single store of a byte into the on-stack staging buffer.  The C code
writes tmp[i] with no bound check; the embedding makes the out-of-bounds
case explicit by returning none when the index is past the end. -/
def writeAt (buf : List Nat) (i v : Nat) : Option (List Nat) :=
  if i < buf.length then some (buf.set i (u8 v)) else none

/-- The copy loop of writePage_internal16 / writePage_internal8: stores the
data bytes into the staging buffer starting at index i. -/
def storeFrom (buf : List Nat) (i : Nat) (data : List Nat) : Option (List Nat) :=
  match data with
  | [] => some buf
  | d :: rest =>
    match writeAt buf i d with
    | none => none
    | some buf2 => storeFrom buf2 (i + 1) rest

/-- Embedding of Eeprom24::writePage_internal16 (eeprom24.cpp lines 131-142):
a staging buffer of m_pageSizeInBytes + 2 bytes receives the two address
bytes and then the data bytes at indices 2..length+1; the frame of
length + 2 bytes is transmitted once and the result compares the HAL status
to HAL_OK.  An out-of-bounds store in the copy loop yields none. -/
def writePage_internal16 (pageSize devAddress byteAddress : Nat) (data : List Nat)
    (txStatus : HalStatus) : Option (Bool × List BusEvent) :=
  match writeAt (List.replicate (u16 pageSize + 2) 0) 0 (u16 byteAddress / 256) with
  | none => none
  | some b1 =>
    match writeAt b1 1 (u16 byteAddress) with
    | none => none
    | some b2 =>
      match storeFrom b2 2 data with
      | none => none
      | some buf =>
        some (decide (txStatus = HalStatus.ok),
          [BusEvent.transmit (u8 devAddress * 2) (buf.take (data.length + 2))])

/-- Embedding of Eeprom24::writePage_internal8 (eeprom24.cpp lines 156-166):
a staging buffer of m_pageSizeInBytes + 1 bytes receives the single address
byte and then the data bytes at indices 1..length; the frame of length + 1
bytes is transmitted once. -/
def writePage_internal8 (pageSize devAddress byteAddress : Nat) (data : List Nat)
    (txStatus : HalStatus) : Option (Bool × List BusEvent) :=
  match writeAt (List.replicate (u16 pageSize + 1) 0) 0 byteAddress with
  | none => none
  | some b1 =>
    match storeFrom b1 1 data with
    | none => none
    | some buf =>
      some (decide (txStatus = HalStatus.ok),
        [BusEvent.transmit (u8 devAddress * 2) (buf.take (data.length + 1))])

/-- Embedding of Eeprom24::readPage_internal16 (eeprom24.cpp lines 177-184):
transmits the two address bytes (outcome txStatus, not inspected), then
receives count bytes into the caller's buffer; the result compares the
receive status to HAL_OK. -/
def readPage_internal16 (devAddress byteAddress count : Nat) (txStatus rxStatus : HalStatus) :
    Bool × List BusEvent :=
  let a := u16 byteAddress
  let tmp := [u8 (a / 256), u8 a]
  (decide (rxStatus = HalStatus.ok),
    [BusEvent.transmit (u8 devAddress * 2) tmp, BusEvent.receive (u8 devAddress * 2) (u16 count)])

/-- Embedding of Eeprom24::readPage_internal8 (eeprom24.cpp lines 195-201):
transmits the single address byte, then receives count bytes; the result
compares the receive status to HAL_OK. -/
def readPage_internal8 (devAddress byteAddress count : Nat) (txStatus rxStatus : HalStatus) :
    Bool × List BusEvent :=
  let tmp := [u8 byteAddress]
  (decide (rxStatus = HalStatus.ok),
    [BusEvent.transmit (u8 devAddress * 2) tmp, BusEvent.receive (u8 devAddress * 2) (u16 count)])

/-- Polling loop of Eeprom24::waitForReady (eeprom24.cpp lines 38-50).  The
argument ready gives the outcome of the isReady probe as a function of the
milliseconds elapsed since the recorded start tick; each HAL_Delay(1)
advances elapsed time by one millisecond.  A probe at elapsed time e that
fails is followed by the delay and the check elapsed > timeoutMs.  Returns
the result together with the number of probes performed. -/
def waitLoop (ready : Nat → Bool) (timeoutMs e : Nat) : Bool × Nat :=
  if ready e then
    (true, 1)
  else if h : timeoutMs < e + 1 then
    (false, 1)
  else
    let r := waitLoop ready timeoutMs (e + 1)
    (r.1, r.2 + 1)
  termination_by timeoutMs + 1 - e
  decreasing_by omega

/-- Embedding of Eeprom24::waitForReady: run the polling loop from elapsed
time 0 and return its boolean outcome. -/
def waitForReady (ready : Nat → Bool) (timeoutMs : Nat) : Bool :=
  (waitLoop ready timeoutMs 0).1

/-- Number of isReady probes a waitForReady call performs. -/
def waitForReadyProbeCount (ready : Nat → Bool) (timeoutMs : Nat) : Nat :=
  (waitLoop ready timeoutMs 0).2

/-- Embedding of the Eeprom24 class fields (eeprom24.h lines 43-46); all
four fields are declared const in the source. -/
structure Eeprom24 where
  m_i2c : Nat
  m_i2c_address : Nat
  m_sizeInBytes : Nat
  m_pageSizeInBytes : Nat
  deriving DecidableEq, Repr

/-- Embedding of the Eeprom24 constructor (eeprom24.h lines 19-20): the
arguments are narrowed to the field types uint8_t, uint32_t and uint16_t. -/
def Eeprom24.make (i2c address size page : Nat) : Eeprom24 :=
  ⟨i2c, u8 address, size % 4294967296, u16 page⟩

/-- Embedding of Eeprom24::getSizeInBytes (eeprom24.h line 27). -/
def Eeprom24.getSizeInBytes (self : Eeprom24) : Nat := self.m_sizeInBytes

/-- Embedding of Eeprom24::getPageSizeInBytes (eeprom24.h line 28). -/
def Eeprom24.getPageSizeInBytes (self : Eeprom24) : Nat := self.m_pageSizeInBytes

/-- Public writeByte (eeprom24.h line 60) as a state-passing method: the
first component is the driver object after the call.  No field of the
object is assigned anywhere in the source (all four are const), so the
method returns the object unchanged. -/
def Eeprom24.writeByte (self : Eeprom24) (address data : Nat) (txStatus : HalStatus) :
    Eeprom24 × (Bool × List BusEvent) :=
  (self, writeByte_internal16 self.m_i2c_address address data txStatus)

/-- Public readByte (eeprom24.h line 61) as a state-passing method. -/
def Eeprom24.readByte (self : Eeprom24) (address : Nat) (txStatus rxStatus : HalStatus)
    (rxByte : Nat) : Eeprom24 × (Nat × List BusEvent) :=
  (self, readByte_internal16 self.m_i2c_address address txStatus rxStatus rxByte)

/-- Public writePage (eeprom24.h line 63) as a state-passing method. -/
def Eeprom24.writePage (self : Eeprom24) (address : Nat) (data : List Nat)
    (txStatus : HalStatus) : Eeprom24 × Option (Bool × List BusEvent) :=
  (self, writePage_internal16 self.m_pageSizeInBytes self.m_i2c_address address data txStatus)

/-- Public readPage (eeprom24.h line 64) as a state-passing method. -/
def Eeprom24.readPage (self : Eeprom24) (address count : Nat) (txStatus rxStatus : HalStatus) :
    Eeprom24 × (Bool × List BusEvent) :=
  (self, readPage_internal16 self.m_i2c_address address count txStatus rxStatus)

/-- Eeprom24::isReady (eeprom24.cpp lines 27-30) as a state-passing method:
the probe outcome is the supplied HAL status compared to HAL_OK. -/
def Eeprom24.isReadyOp (self : Eeprom24) (probeStatus : HalStatus) : Eeprom24 × Bool :=
  (self, decide (probeStatus = HalStatus.ok))

/-- Eeprom24::waitForReady as a state-passing method. -/
def Eeprom24.waitForReadyOp (self : Eeprom24) (ready : Nat → Bool) (timeoutMs : Nat) :
    Eeprom24 × Bool :=
  (self, waitForReady ready timeoutMs)


/-! Helper lemmas about the staging-buffer operations and the polling loop. -/

/-- Setting the element just past a list appends in place. -/
theorem set_append_cons (pre : List Nat) (s : Nat) (rest : List Nat) (v : Nat) :
    (pre ++ s :: rest).set pre.length v = pre ++ v :: rest := by
  induction pre with
  | nil => rfl
  | cons a as ih => simp [ih]

/-- Truncation to a byte is the identity on byte values. -/
theorem map_u8_of_lt (data : List Nat) (h : ∀ b ∈ data, b < 256) : data.map u8 = data := by
  induction data with
  | nil => rfl
  | cons d rest ih =>
    have hd : d < 256 := h d (by simp)
    have hr : ∀ b ∈ rest, b < 256 := fun b hb => h b (by simp [hb])
    simp [u8, Nat.mod_eq_of_lt hd, ih hr]

/-- When the data fits, the copy loop fills the region after the address
bytes and leaves the tail of the staging buffer in place. -/
theorem storeFrom_some (data : List Nat) :
    ∀ (pre suf : List Nat), data.length ≤ suf.length →
      storeFrom (pre ++ suf) pre.length data
        = some (pre ++ (data.map u8 ++ suf.drop data.length)) := by
  induction data with
  | nil => intro pre suf _; simp [storeFrom]
  | cons d rest ih =>
    intro pre suf h
    match suf with
    | [] => simp at h
    | s :: suf2 =>
      have hlt : pre.length < (pre ++ s :: suf2).length := by simp
      have hrec := ih (pre ++ [u8 d]) suf2 (by simpa using h)
      simp only [List.length_append, List.length_cons, List.length_nil] at hrec
      simp only [storeFrom, writeAt, hlt, if_pos, set_append_cons]
      simpa [List.append_assoc] using hrec

/-- When the data does not fit, the copy loop reaches an index past the end
of the staging buffer. -/
theorem storeFrom_none (data : List Nat) :
    ∀ (buf : List Nat) (i : Nat), i ≤ buf.length → buf.length < i + data.length →
      storeFrom buf i data = none := by
  induction data with
  | nil =>
    intro buf i hle hlt
    simp only [List.length_nil] at hlt
    exact absurd hlt (by omega)
  | cons d rest ih =>
    intro buf i hle hlt
    simp only [List.length_cons] at hlt
    by_cases hi : i < buf.length
    · simp only [storeFrom, writeAt, hi, if_pos]
      exact ih _ (i + 1) (by simp [List.length_set]; omega) (by simp [List.length_set]; omega)
    · simp [storeFrom, writeAt, hi]

/-- Normal form of writePage_internal16 when the data fits in the page:
one transmit of the two address bytes followed by the data. -/
theorem writePage16_frame (pageSize devAddress byteAddress : Nat) (data : List Nat)
    (txStatus : HalStatus) (h : data.length ≤ u16 pageSize) :
    writePage_internal16 pageSize devAddress byteAddress data txStatus =
      some (decide (txStatus = HalStatus.ok),
        [BusEvent.transmit (u8 devAddress * 2)
          (u8 (u16 byteAddress / 256) :: u8 (u16 byteAddress) :: data.map u8)]) := by
  have hrep : List.replicate (u16 pageSize + 2) (0 : Nat)
      = 0 :: 0 :: List.replicate (u16 pageSize) 0 := by
    rw [show u16 pageSize + 2 = (u16 pageSize + 1) + 1 from rfl]
    simp [List.replicate_succ]
  have e1 : writeAt (0 :: 0 :: List.replicate (u16 pageSize) 0) 0 (u16 byteAddress / 256)
      = some (u8 (u16 byteAddress / 256) :: 0 :: List.replicate (u16 pageSize) 0) := by
    simp [writeAt]
  have e2 : writeAt (u8 (u16 byteAddress / 256) :: 0 :: List.replicate (u16 pageSize) 0) 1
        (u16 byteAddress)
      = some (u8 (u16 byteAddress / 256) :: u8 (u16 byteAddress)
          :: List.replicate (u16 pageSize) 0) := by
    simp [writeAt]
  have e3 := storeFrom_some data [u8 (u16 byteAddress / 256), u8 (u16 byteAddress)]
      (List.replicate (u16 pageSize) 0) (by simpa using h)
  simp only [List.cons_append, List.nil_append, List.length_cons, List.length_nil] at e3
  rw [show (0 : Nat) + 1 + 1 = 2 from rfl] at e3
  have e4 : (u8 (u16 byteAddress / 256) :: u8 (u16 byteAddress)
        :: (data.map u8 ++ (List.replicate (u16 pageSize) 0).drop data.length)).take
        (data.length + 2)
      = u8 (u16 byteAddress / 256) :: u8 (u16 byteAddress) :: data.map u8 := by
    rw [show data.length + 2 = data.length + 1 + 1 from rfl]
    rw [List.take_succ_cons, List.take_succ_cons, List.take_left']
    simp
  simp only [writePage_internal16, hrep, e1, e2, e3, e4]

/-- Normal form of writePage_internal8 when the data fits in the page:
one transmit of the single address byte followed by the data. -/
theorem writePage8_frame (pageSize devAddress byteAddress : Nat) (data : List Nat)
    (txStatus : HalStatus) (h : data.length ≤ u16 pageSize) :
    writePage_internal8 pageSize devAddress byteAddress data txStatus =
      some (decide (txStatus = HalStatus.ok),
        [BusEvent.transmit (u8 devAddress * 2) (u8 byteAddress :: data.map u8)]) := by
  have hrep : List.replicate (u16 pageSize + 1) (0 : Nat)
      = 0 :: List.replicate (u16 pageSize) 0 := by
    simp [List.replicate_succ]
  have e1 : writeAt (0 :: List.replicate (u16 pageSize) 0) 0 byteAddress
      = some (u8 byteAddress :: List.replicate (u16 pageSize) 0) := by
    simp [writeAt]
  have e3 := storeFrom_some data [u8 byteAddress]
      (List.replicate (u16 pageSize) 0) (by simpa using h)
  simp only [List.cons_append, List.nil_append, List.length_cons, List.length_nil] at e3
  rw [show (0 : Nat) + 1 = 1 from rfl] at e3
  have e4 : (u8 byteAddress
        :: (data.map u8 ++ (List.replicate (u16 pageSize) 0).drop data.length)).take
        (data.length + 1)
      = u8 byteAddress :: data.map u8 := by
    rw [List.take_succ_cons, List.take_left']
    simp
  simp only [writePage_internal8, hrep, e1, e3, e4]

/-- When the data exceeds the page size, the copy loop of
writePage_internal16 runs past the staging buffer and the embedding yields
none. -/
theorem writePage16_none (pageSize devAddress byteAddress : Nat) (data : List Nat)
    (txStatus : HalStatus) (h : u16 pageSize < data.length) :
    writePage_internal16 pageSize devAddress byteAddress data txStatus = none := by
  have hrep : List.replicate (u16 pageSize + 2) (0 : Nat)
      = 0 :: 0 :: List.replicate (u16 pageSize) 0 := by
    rw [show u16 pageSize + 2 = (u16 pageSize + 1) + 1 from rfl]
    simp [List.replicate_succ]
  have e1 : writeAt (0 :: 0 :: List.replicate (u16 pageSize) 0) 0 (u16 byteAddress / 256)
      = some (u8 (u16 byteAddress / 256) :: 0 :: List.replicate (u16 pageSize) 0) := by
    simp [writeAt]
  have e2 : writeAt (u8 (u16 byteAddress / 256) :: 0 :: List.replicate (u16 pageSize) 0) 1
        (u16 byteAddress)
      = some (u8 (u16 byteAddress / 256) :: u8 (u16 byteAddress)
          :: List.replicate (u16 pageSize) 0) := by
    simp [writeAt]
  have e3 : storeFrom (u8 (u16 byteAddress / 256) :: u8 (u16 byteAddress)
        :: List.replicate (u16 pageSize) 0) 2 data = none := by
    apply storeFrom_none
    · simp
    · simp; omega
  simp only [writePage_internal16, hrep, e1, e2, e3]

/-- When the data exceeds the page size, the copy loop of
writePage_internal8 runs past the staging buffer and the embedding yields
none. -/
theorem writePage8_none (pageSize devAddress byteAddress : Nat) (data : List Nat)
    (txStatus : HalStatus) (h : u16 pageSize < data.length) :
    writePage_internal8 pageSize devAddress byteAddress data txStatus = none := by
  have hrep : List.replicate (u16 pageSize + 1) (0 : Nat)
      = 0 :: List.replicate (u16 pageSize) 0 := by
    simp [List.replicate_succ]
  have e1 : writeAt (0 :: List.replicate (u16 pageSize) 0) 0 byteAddress
      = some (u8 byteAddress :: List.replicate (u16 pageSize) 0) := by
    simp [writeAt]
  have e3 : storeFrom (u8 byteAddress :: List.replicate (u16 pageSize) 0) 1 data = none := by
    apply storeFrom_none
    · simp
    · simp; omega
  simp only [writePage_internal8, hrep, e1, e3]

/-- Outcome of the polling loop from elapsed time e: true exactly when some
probe at a time within the timeout observes readiness. -/
theorem waitLoop_true_iff_aux (ready : Nat → Bool) (timeoutMs : Nat) :
    ∀ (d e : Nat), timeoutMs ≤ e + d → e ≤ timeoutMs →
      ((waitLoop ready timeoutMs e).1 = true ↔ ∃ j, e ≤ j ∧ j ≤ timeoutMs ∧ ready j = true) := by
  intro d
  induction d with
  | zero =>
    intro e h1 h2
    have he : e = timeoutMs := by omega
    subst he
    rw [waitLoop]
    cases hr : ready e with
    | true =>
      simp [hr]
      exact ⟨e, le_refl e, le_refl e, hr⟩
    | false =>
      have hc : e < e + 1 := by omega
      simp [hr, hc]
      intro j hj1 hj2
      have : j = e := by omega
      subst this
      simp [hr]
  | succ d ih =>
    intro e h1 h2
    rw [waitLoop]
    cases hr : ready e with
    | true =>
      simp [hr]
      exact ⟨e, le_refl e, h2, hr⟩
    | false =>
      by_cases hc : timeoutMs < e + 1
      · simp [hr, hc]
        intro j hj1 hj2
        have : j = e := by omega
        subst this
        simp [hr]
      · simp only [hr, Bool.false_eq_true, if_false, hc, dite_false]
        have hrec := ih (e + 1) (by omega) (by omega)
        simp only [hrec]
        constructor
        · rintro ⟨j, hj1, hj2, hj3⟩
          exact ⟨j, by omega, hj2, hj3⟩
        · rintro ⟨j, hj1, hj2, hj3⟩
          refine ⟨j, ?_, hj2, hj3⟩
          rcases Nat.eq_or_lt_of_le hj1 with h | h
          · subst h; rw [hr] at hj3; cases hj3
          · omega

/-- The polling loop performs at most timeoutMs + 1 - e probes. -/
theorem waitLoop_count_le_aux (ready : Nat → Bool) (timeoutMs : Nat) :
    ∀ (d e : Nat), timeoutMs ≤ e + d → e ≤ timeoutMs →
      (waitLoop ready timeoutMs e).2 ≤ timeoutMs + 1 - e := by
  intro d
  induction d with
  | zero =>
    intro e h1 h2
    rw [waitLoop]
    cases hr : ready e with
    | true => simp; omega
    | false =>
      have hc : timeoutMs < e + 1 := by omega
      simp [hr, hc]
      omega
  | succ d ih =>
    intro e h1 h2
    rw [waitLoop]
    cases hr : ready e with
    | true => simp; omega
    | false =>
      by_cases hc : timeoutMs < e + 1
      · simp [hr, hc]; omega
      · simp only [hr, Bool.false_eq_true, if_false, hc, dite_false]
        have hrec := ih (e + 1) (by omega) (by omega)
        show (waitLoop ready timeoutMs (e + 1)).2 + 1 ≤ timeoutMs + 1 - e
        omega

/-! Claim theorems. -/

/-- C1: at a concrete input, writeByte_internal8 (8-bit addressing)
transmits the frame 0x00, 0x34, 0xAB: a two-byte address prefix whose
first byte is the constant 0 (byteAddress shifted right by 8 on a uint8_t
value), not the single-byte prefix 0x34 the claim gives for 8-bit
addressing; readByte_internal8, by contrast, does transmit the single
address byte. -/
theorem c1_writeByte_internal8_two_address_bytes :
    (writeByte_internal8 80 52 171 HalStatus.ok).2 = [BusEvent.transmit 160 [0, 52, 171]]
    ∧ (readByte_internal8 80 52 HalStatus.ok HalStatus.ok 0).2 =
        [BusEvent.transmit 160 [52], BusEvent.receive 160 1] := by
  exact ⟨rfl, rfl⟩

/-- C2: waitForReady probes at a fixed one-millisecond interval and returns
true exactly when some probe within the timeout observes readiness; against
a transport that becomes ready after exactly k probe intervals it returns
true iff k milliseconds do not exceed timeoutMs. -/
theorem c2_waitForReady_ready_threshold (ready : Nat → Bool) (timeoutMs k : Nat) :
    (waitForReady ready timeoutMs = true ↔ ∃ j, j ≤ timeoutMs ∧ ready j = true)
    ∧ (waitForReady (fun e => decide (k ≤ e)) timeoutMs = true ↔ k ≤ timeoutMs) := by
  constructor
  · have h := waitLoop_true_iff_aux ready timeoutMs timeoutMs 0 (by omega) (by omega)
    unfold waitForReady
    rw [h]
    constructor
    · rintro ⟨j, _, hj2, hj3⟩
      exact ⟨j, hj2, hj3⟩
    · rintro ⟨j, hj2, hj3⟩
      exact ⟨j, by omega, hj2, hj3⟩
  · have h := waitLoop_true_iff_aux (fun e => decide (k ≤ e)) timeoutMs timeoutMs 0
        (by omega) (by omega)
    unfold waitForReady
    rw [h]
    constructor
    · rintro ⟨j, _, hj2, hj3⟩
      simp only [decide_eq_true_eq] at hj3
      omega
    · intro hk
      exact ⟨k, by omega, hk, by simp⟩

/-- C6: readPage issues the address bytes as a write-phase transmit and
then a receive of exactly the requested count, for every count; the count
is not clamped (the functions do not consult the page size at all) and the
result is the receive status compared to HAL_OK. -/
theorem c6_readPage_two_phase_exact_length (devAddress byteAddress count : Nat)
    (txStatus rxStatus : HalStatus) :
    readPage_internal16 devAddress byteAddress count txStatus rxStatus =
      (decide (rxStatus = HalStatus.ok),
        [BusEvent.transmit (u8 devAddress * 2)
            [u8 (u16 byteAddress / 256), u8 (u16 byteAddress)],
         BusEvent.receive (u8 devAddress * 2) (u16 count)])
    ∧ readPage_internal8 devAddress byteAddress count txStatus rxStatus =
      (decide (rxStatus = HalStatus.ok),
        [BusEvent.transmit (u8 devAddress * 2) [u8 byteAddress],
         BusEvent.receive (u8 devAddress * 2) (u16 count)]) :=
  ⟨rfl, rfl⟩

/-- C7: waitForReady performs at most timeoutMs + 1 probes (the polling
loop advances elapsed time by one millisecond per failed probe) and always
returns control with a boolean outcome. -/
theorem c7_waitForReady_probe_bound (ready : Nat → Bool) (timeoutMs : Nat) :
    waitForReadyProbeCount ready timeoutMs ≤ timeoutMs + 1
    ∧ (waitForReady ready timeoutMs = true ∨ waitForReady ready timeoutMs = false) := by
  constructor
  · have h := waitLoop_count_le_aux ready timeoutMs timeoutMs 0 (by omega) (by omega)
    unfold waitForReadyProbeCount
    omega
  · exact Bool.eq_false_or_eq_true _

/-- C9: the boolean result of readPage and the byte result of readByte
depend only on the receive phase; a failed address transmit followed by a
successful receive yields readPage = true, and readByte returns the
received byte. -/
theorem c9_read_results_ignore_tx_phase (devAddress byteAddress count rxByte : Nat)
    (tx tx' rx : HalStatus) :
    (readPage_internal16 devAddress byteAddress count tx rx).1
        = (readPage_internal16 devAddress byteAddress count tx' rx).1
    ∧ (readPage_internal8 devAddress byteAddress count tx rx).1
        = (readPage_internal8 devAddress byteAddress count tx' rx).1
    ∧ (readByte_internal16 devAddress byteAddress tx rx rxByte).1
        = (readByte_internal16 devAddress byteAddress tx' rx rxByte).1
    ∧ (readByte_internal8 devAddress byteAddress tx rx rxByte).1
        = (readByte_internal8 devAddress byteAddress tx' rx rxByte).1
    ∧ (readPage_internal16 devAddress byteAddress count HalStatus.error HalStatus.ok).1 = true
    ∧ (readPage_internal8 devAddress byteAddress count HalStatus.error HalStatus.ok).1 = true
    ∧ (readByte_internal16 devAddress byteAddress HalStatus.error HalStatus.ok rxByte).1
        = u8 rxByte
    ∧ (readByte_internal8 devAddress byteAddress HalStatus.error HalStatus.ok rxByte).1
        = u8 rxByte :=
  ⟨rfl, rfl, rfl, rfl, rfl, rfl, rfl, rfl⟩

/-- C10: the staging-buffer copy of writePage stays in bounds exactly when
the data length is at most the page size: the embedding succeeds (isSome)
iff length fits, and reaches the out-of-bounds branch (none) for any
longer data. -/
theorem c10_writePage_staging_bounds (pageSize devAddress byteAddress : Nat)
    (data : List Nat) (txStatus : HalStatus) :
    (writePage_internal16 pageSize devAddress byteAddress data txStatus).isSome
        = decide (data.length ≤ u16 pageSize)
    ∧ (writePage_internal8 pageSize devAddress byteAddress data txStatus).isSome
        = decide (data.length ≤ u16 pageSize) := by
  by_cases h : data.length ≤ u16 pageSize
  · rw [writePage16_frame pageSize devAddress byteAddress data txStatus h,
      writePage8_frame pageSize devAddress byteAddress data txStatus h]
    simp [h]
  · have h2 : u16 pageSize < data.length := by omega
    rw [writePage16_none pageSize devAddress byteAddress data txStatus h2,
      writePage8_none pageSize devAddress byteAddress data txStatus h2]
    simp [h]

/-- C3 counterexample: with page size 2 and three data bytes, the copy loop
overruns the staging buffer of pageSize + 2 bytes, so no frame at all is
transmitted: the claim that every writePage call transmits the address
bytes followed by all the data, even beyond the page size, is false. -/
theorem c3_writePage_over_page_no_frame :
    writePage_internal16 2 80 256 [1, 2, 3] HalStatus.ok = none := by
  rfl

/-- C3 (amended): for every writePage call whose length is at most
pageSizeBytes, the frame transmitted in the single bus transaction is
exactly the address bytes followed by all of the data bytes in order, for
a total of length + 2 (16-bit addressing) or length + 1 (8-bit addressing)
bytes; the transmit length is never clamped to the page size. -/
theorem c3_writePage_frame_in_bounds (pageSize devAddress byteAddress : Nat)
    (data : List Nat) (txStatus : HalStatus) (hlen : data.length ≤ u16 pageSize)
    (hbytes : ∀ b ∈ data, b < 256) :
    writePage_internal16 pageSize devAddress byteAddress data txStatus =
      some (decide (txStatus = HalStatus.ok),
        [BusEvent.transmit (u8 devAddress * 2)
          (u8 (u16 byteAddress / 256) :: u8 (u16 byteAddress) :: data)])
    ∧ writePage_internal8 pageSize devAddress byteAddress data txStatus =
      some (decide (txStatus = HalStatus.ok),
        [BusEvent.transmit (u8 devAddress * 2) (u8 byteAddress :: data)])
    ∧ (u8 (u16 byteAddress / 256) :: u8 (u16 byteAddress) :: data).length = data.length + 2
    ∧ (u8 byteAddress :: data).length = data.length + 1 := by
  refine ⟨?_, ?_, by simp, by simp⟩
  · have h16 := writePage16_frame pageSize devAddress byteAddress data txStatus hlen
    rw [map_u8_of_lt data hbytes] at h16
    exact h16
  · have h8 := writePage8_frame pageSize devAddress byteAddress data txStatus hlen
    rw [map_u8_of_lt data hbytes] at h8
    exact h8

/-- C3 witness: a concrete in-bounds call, evaluated. -/
theorem c3_writePage_frame_in_bounds_witness :
    writePage_internal16 4 80 291 [1, 2, 3] HalStatus.ok =
      some (true, [BusEvent.transmit 160 [1, 35, 1, 2, 3]])
    ∧ writePage_internal8 4 80 291 [1, 2, 3] HalStatus.ok =
      some (true, [BusEvent.transmit 160 [35, 1, 2, 3]]) := by
  have h := c3_writePage_frame_in_bounds 4 80 291 [1, 2, 3] HalStatus.ok (by decide)
      (by decide)
  exact ⟨by rw [h.1]; rfl, by rw [h.2.1]; rfl⟩

/-- C4 counterexample: with a failed address write-phase and a successful
read-phase delivering the byte 7, readByte returns 7, not the default 0,
so the claim that a failure of either phase forces the default byte is
false. -/
theorem c4_readByte_nonzero_after_tx_fail :
    (readByte_internal16 80 0 HalStatus.error HalStatus.ok 7).1 = 7 ∧ (7 : Nat) ≠ 0 :=
  ⟨rfl, by decide⟩

/-- C4 (amended): readByte issues the address bytes as a write-phase
transmit followed by a one-byte read-phase receive, surfaces no error code
(its only outputs are the byte and the transactions), returns the default
byte 0 whenever the read phase fails, and its result does not depend on
the write-phase outcome. -/
theorem c4_readByte_two_phase_default_zero (devAddress byteAddress : Nat)
    (txStatus rxStatus : HalStatus) (rxByte : Nat) :
    (readByte_internal16 devAddress byteAddress txStatus rxStatus rxByte).2 =
      [BusEvent.transmit (u8 devAddress * 2)
          [u8 (u16 byteAddress / 256), u8 (u16 byteAddress)],
       BusEvent.receive (u8 devAddress * 2) 1]
    ∧ (readByte_internal8 devAddress byteAddress txStatus rxStatus rxByte).2 =
      [BusEvent.transmit (u8 devAddress * 2) [u8 byteAddress],
       BusEvent.receive (u8 devAddress * 2) 1]
    ∧ (readByte_internal16 devAddress byteAddress txStatus rxStatus rxByte).1
        = (readByte_internal16 devAddress byteAddress HalStatus.ok rxStatus rxByte).1
    ∧ (readByte_internal8 devAddress byteAddress txStatus rxStatus rxByte).1
        = (readByte_internal8 devAddress byteAddress HalStatus.ok rxStatus rxByte).1
    ∧ (rxStatus ≠ HalStatus.ok →
        (readByte_internal16 devAddress byteAddress txStatus rxStatus rxByte).1 = 0
        ∧ (readByte_internal8 devAddress byteAddress txStatus rxStatus rxByte).1 = 0) := by
  refine ⟨rfl, rfl, rfl, rfl, fun h => ⟨?_, ?_⟩⟩
  · simp [readByte_internal16, h]
  · simp [readByte_internal8, h]

/-- C4 witness: a concrete failed read phase returns the default 0. -/
theorem c4_readByte_two_phase_default_zero_witness :
    (readByte_internal16 80 258 HalStatus.ok HalStatus.error 7).1 = 0
    ∧ (readByte_internal8 80 258 HalStatus.ok HalStatus.error 7).1 = 0 :=
  (c4_readByte_two_phase_default_zero 80 258 HalStatus.ok HalStatus.error 7).2.2.2.2
    (by decide)

/-- C5 counterexample: a writePage call with two data bytes on a device
with page size 1 overruns the staging buffer and issues no transmit at
all, so the claim that every write-family call issues exactly one transmit
is false. -/
theorem c5_writePage_over_page_no_transmit :
    writePage_internal8 1 80 5 [1, 2] HalStatus.ok = none := by
  rfl

/-- C5 (amended): every writeByte call, and every writePage call whose
length is at most pageSizeBytes, issues exactly one bus transmit and
returns true iff that transmit reports HAL_OK; no second transmit ever
appears, so nothing is retried. -/
theorem c5_write_ops_single_transmit (devAddress byteAddr16 byteAddr8 value pageSize : Nat)
    (data : List Nat) (txStatus : HalStatus) (h : data.length ≤ u16 pageSize) :
    (∃ f, writeByte_internal16 devAddress byteAddr16 value txStatus =
        (decide (txStatus = HalStatus.ok), [BusEvent.transmit (u8 devAddress * 2) f]))
    ∧ (∃ f, writeByte_internal8 devAddress byteAddr8 value txStatus =
        (decide (txStatus = HalStatus.ok), [BusEvent.transmit (u8 devAddress * 2) f]))
    ∧ (∃ f, writePage_internal16 pageSize devAddress byteAddr16 data txStatus =
        some (decide (txStatus = HalStatus.ok), [BusEvent.transmit (u8 devAddress * 2) f]))
    ∧ (∃ f, writePage_internal8 pageSize devAddress byteAddr8 data txStatus =
        some (decide (txStatus = HalStatus.ok), [BusEvent.transmit (u8 devAddress * 2) f])) :=
  ⟨⟨_, rfl⟩, ⟨_, rfl⟩,
    ⟨_, writePage16_frame pageSize devAddress byteAddr16 data txStatus h⟩,
    ⟨_, writePage8_frame pageSize devAddress byteAddr8 data txStatus h⟩⟩

/-- C5 witness: a concrete in-bounds call satisfying the hypothesis. -/
theorem c5_write_ops_single_transmit_witness :
    ([6] : List Nat).length ≤ u16 1
    ∧ (∃ f, writePage_internal8 1 80 5 [6] HalStatus.ok
        = some (decide (HalStatus.ok = HalStatus.ok), [BusEvent.transmit (u8 80 * 2) f])) :=
  ⟨by decide, (c5_write_ops_single_transmit 80 3 5 9 1 [6] HalStatus.ok (by decide)).2.2.2⟩

/-- C8: the device profile is immutable after construction: the getters
return exactly the values supplied to the constructor, and every operation
returns the driver object unchanged (all four fields are const in the
source). -/
theorem c8_profile_immutable (i2c address size page : Nat)
    (hsize : size < 4294967296) (hpage : page < 65536) :
    (Eeprom24.make i2c address size page).getSizeInBytes = size
    ∧ (Eeprom24.make i2c address size page).getPageSizeInBytes = page
    ∧ ∀ (dev : Eeprom24) (a v count rxByte timeoutMs : Nat) (data : List Nat)
        (s tx rx : HalStatus) (ready : Nat → Bool),
        (dev.writeByte a v s).1 = dev
        ∧ (dev.readByte a tx rx rxByte).1 = dev
        ∧ (dev.writePage a data s).1 = dev
        ∧ (dev.readPage a count tx rx).1 = dev
        ∧ (dev.isReadyOp s).1 = dev
        ∧ (dev.waitForReadyOp ready timeoutMs).1 = dev := by
  refine ⟨?_, ?_,
    fun dev a v count rxByte timeoutMs data s tx rx ready => ⟨rfl, rfl, rfl, rfl, rfl, rfl⟩⟩
  · simp [Eeprom24.make, Eeprom24.getSizeInBytes, Nat.mod_eq_of_lt hsize]
  · simp [Eeprom24.make, Eeprom24.getPageSizeInBytes, u16, Nat.mod_eq_of_lt hpage]

/-- C8 witness: the 24x512 profile values are returned unchanged. -/
theorem c8_profile_immutable_witness :
    (Eeprom24.make 1 80 65535 128).getSizeInBytes = 65535
    ∧ (Eeprom24.make 1 80 65535 128).getPageSizeInBytes = 128 :=
  ⟨(c8_profile_immutable 1 80 65535 128 (by decide) (by decide)).1,
   (c8_profile_immutable 1 80 65535 128 (by decide) (by decide)).2.1⟩
